import Mathlib

/- Verification of the enemy and session logic of `turtle_adventure.py`
(the Turtle Adventure game).

Shallow-embedding conventions used throughout this file:
* Python float arithmetic is modelled by exact real arithmetic (`ℝ`);
  `math.hypot dx dy` is the function `hypot` below.
* A Python expression that raises `ZeroDivisionError` (float division by
  zero raises in Python) is modelled by an `Option`-valued function that
  returns `none` on exactly the raising inputs.
* Canvas rectangles and turtle handles are modelled by the coordinates
  and visibility flags they carry.
* `FencingEnemy` coordinates stay integral (corners and speed are integer
  literals in the source), so its state is embedded with `ℤ` coordinates.
* `gamelib.py` (class `Game`: the tick loop, `stop`, `add_element`) is not
  among the sources; the few facts needed about it are modelled from the
  spec and marked `Modelled from the spec:` in their doc comments.
-/

namespace TurtleAdventure


/-- Module constant `SCREEN_WIDTH = 800` of `turtle_adventure.py`. -/
def SCREEN_WIDTH : ℝ := 800

/-- Module constant `SCREEN_HEIGHT = 500` of `turtle_adventure.py`. -/
def SCREEN_HEIGHT : ℝ := 500

/-- Embedding of Python's `math.hypot dx dy` (Euclidean length). -/
noncomputable def hypot (dx dy : ℝ) : ℝ := Real.sqrt (dx ^ 2 + dy ^ 2)

/-- Euclidean distance between two points, as computed by the source via
`math.hypot` on coordinate differences. -/
noncomputable def distE (p q : ℝ × ℝ) : ℝ := hypot (p.1 - q.1) (p.2 - q.2)

/-! FencingEnemy: integer patrol dynamics around the fixed rectangle
(660,210)-(720,210)-(720,270)-(660,270). -/

/-- State of a `FencingEnemy` (`__init__` sets `speed = 5`; the generator
constructs it with `size = 10` and assigns `spawnOpt`). -/
structure FencingEnemy where
  x : ℤ
  y : ℤ
  speed : ℤ
  size : ℤ
  spawnOpt : ℕ
deriving DecidableEq, Repr

/-- `FencingEnemy` as built by `EnemyGenerator.create_fencing` (size 10,
speed 5, the given `spawnOpt`) followed by `create()`, which places the
enemy on its corner: opt 1 ↦ (660,210), opt 0 ↦ (720,270), opt 2 ↦
(720,210), opt 3 ↦ (660,270).  Any other opt leaves the default (0,0). -/
def fencingCreate (opt : ℕ) : FencingEnemy :=
  if opt = 1 then ⟨660, 210, 5, 10, opt⟩
  else if opt = 0 then ⟨720, 270, 5, 10, opt⟩
  else if opt = 2 then ⟨720, 210, 5, 10, opt⟩
  else if opt = 3 then ⟨660, 270, 5, 10, opt⟩
  else ⟨0, 0, 5, 10, opt⟩

/-- Embedding of `FencingEnemy.update`.  The four `if` blocks of each
`spawnOpt` branch execute in order on the mutated coordinates, exactly as
the in-place updates of the source; the returned `Bool` is whether the
enemy requests `game_over_lose` (player strictly inside the size-box). -/
def fencingUpdate (player : ℤ × ℤ) (e : FencingEnemy) : FencingEnemy × Bool :=
  let s := e.speed
  let p :=
    if e.spawnOpt = 1 then
      let x1 := if e.y = 210 ∧ e.x < 720 then e.x + s else e.x
      let y1 := if x1 = 720 ∧ e.y < 270 then e.y + s else e.y
      let x2 := if y1 = 270 ∧ x1 > 660 then x1 - s else x1
      let y2 := if x2 = 660 ∧ y1 > 210 then y1 - s else y1
      (x2, y2)
    else if e.spawnOpt = 0 then
      let x1 := if e.y = 270 ∧ e.x > 660 then e.x - s else e.x
      let y1 := if x1 = 660 ∧ e.y > 210 then e.y - s else e.y
      let x2 := if y1 = 210 ∧ x1 < 720 then x1 + s else x1
      let y2 := if x2 = 720 ∧ y1 < 270 then y1 + s else y1
      (x2, y2)
    else if e.spawnOpt = 2 then
      let y1 := if e.x = 720 ∧ e.y < 270 then e.y + s else e.y
      let x1 := if y1 = 270 ∧ e.x > 660 then e.x - s else e.x
      let y2 := if x1 = 660 ∧ y1 > 210 then y1 - s else y1
      let x2 := if y2 = 210 ∧ x1 < 720 then x1 + s else x1
      (x2, y2)
    else if e.spawnOpt = 3 then
      let y1 := if e.x = 660 ∧ e.y > 210 then e.y - s else e.y
      let x1 := if y1 = 210 ∧ e.x < 720 then e.x + s else e.x
      let y2 := if x1 = 720 ∧ y1 < 270 then y1 + s else y1
      let x2 := if y2 = 270 ∧ x1 > 660 then x1 - s else x1
      (x2, y2)
    else (e.x, e.y)
  let e1 : FencingEnemy := { e with x := p.1, y := p.2 }
  let hit := decide (e1.x < player.1 ∧ player.1 < e1.x + e1.size ∧
    e1.y < player.2 ∧ player.2 < e1.y + e1.size)
  (e1, hit)

/-- One movement tick of a fencing enemy, with the player far away at
(50, 250) (the player's spawn point). -/
def fencingStep (e : FencingEnemy) : FencingEnemy := (fencingUpdate (50, 250) e).1

/-- Membership in the patrol rectangle's perimeter. -/
def onPerimeter (e : FencingEnemy) : Prop :=
  ((e.y = 210 ∨ e.y = 270) ∧ 660 ≤ e.x ∧ e.x ≤ 720) ∨
    ((e.x = 660 ∨ e.x = 720) ∧ 210 ≤ e.y ∧ e.y ≤ 270)

instance (e : FencingEnemy) : Decidable (onPerimeter e) := by
  unfold onPerimeter
  infer_instance

/-! ChasingEnemy: pure pursuit with clamping against the module constants. -/

/-- State of a `ChasingEnemy` (`__init__` draws `speed` from {2,3}; the
generator constructs it with `size = 20`). -/
structure ChasingEnemy where
  x : ℝ
  y : ℝ
  speed : ℝ
  size : ℝ

/-- Embedding of `ChasingEnemy.update`.  When the player coincides with the
enemy, `dist = math.hypot(0,0) = 0` and `dx / dist` raises
`ZeroDivisionError` in Python, modelled as `none`; otherwise the enemy
advances by `speed` along the unit vector toward the player, each
coordinate is clamped by the `if/elif` chains against the module constants
`SCREEN_WIDTH`/`SCREEN_HEIGHT`, and the returned `Bool` records whether the
inline collision check requests `game_over_lose`. -/
noncomputable def chasingUpdate (player : ℝ × ℝ) (e : ChasingEnemy) :
    Option (ChasingEnemy × Bool) :=
  let dx := player.1 - e.x
  let dy := player.2 - e.y
  let dist := hypot dx dy
  if dist = 0 then none
  else
    let x1 := e.x + dx / dist * e.speed
    let y1 := e.y + dy / dist * e.speed
    let x2 := if x1 < 0 then 0
      else if x1 > SCREEN_WIDTH - e.size then SCREEN_WIDTH - e.size else x1
    let y2 := if y1 < 0 then 0
      else if y1 > SCREEN_HEIGHT - e.size then SCREEN_HEIGHT - e.size else y1
    let hit := if x2 < player.1 ∧ player.1 < x2 + e.size ∧
        y2 < player.2 ∧ player.2 < y2 + e.size then true else false
    some ({ e with x := x2, y := y2 }, hit)

/-- Constructor arguments of `TurtleAdventureGame` relevant to claim C5:
the session's screen size is a free parameter of the program. -/
structure Session where
  screen_width : ℝ
  screen_height : ℝ

/-- The containment asserted by claim C5, relative to a session's screen
size: position within [0, screen_width − size] × [0, screen_height − size]. -/
def chasingInBounds (sess : Session) (e : ChasingEnemy) : Prop :=
  0 ≤ e.x ∧ e.x ≤ sess.screen_width - e.size ∧
    0 ≤ e.y ∧ e.y ≤ sess.screen_height - e.size

/-! CentipedeEnemy: pursuing head with a lagging chain of body segments. -/

/-- State of a `CentipedeEnemy`: the tracked head position (`self.x`,
`self.y`), the constants fixed by `__init__` (`speed = 4`,
`segment_spacing = 1 * size`, `length = 10`), and the canvas top-left
coordinates of the `body_segments` rectangles (head rectangle first). -/
structure CentipedeEnemy where
  x : ℝ
  y : ℝ
  speed : ℝ
  segment_spacing : ℝ
  size : ℝ
  segs : List (ℝ × ℝ)

/-- One iteration of the body loop of `CentipedeEnemy.update`: if the
distance to the predecessor's current canvas position exceeds
`segment_spacing`, the segment moves along the connecting direction just
far enough to make the separation exactly `segment_spacing`.  The division
by `dist` only happens under the `dist > segment_spacing` guard, which for
the program's positive spacing (`1 * size = 10`) makes it nonzero. -/
noncomputable def adjustSeg (spacing : ℝ) (prev s : ℝ × ℝ) : ℝ × ℝ :=
  let dx := prev.1 - s.1
  let dy := prev.2 - s.2
  let dist := hypot dx dy
  if dist > spacing then
    (s.1 + dx / dist * (dist - spacing), s.2 + dy / dist * (dist - spacing))
  else s

/-- The `for i in range(1, len(body_segments))` loop: each segment is
adjusted against the already-updated position of its predecessor. -/
noncomputable def followSegs (spacing : ℝ) : ℝ × ℝ → List (ℝ × ℝ) → List (ℝ × ℝ)
  | _, [] => []
  | prev, s :: rest =>
    let s1 := adjustSeg spacing prev s
    s1 :: followSegs spacing s1 rest

/-- `CentipedeEnemy` as built by `EnemyGenerator.create_centipede` at a
spawn position followed by `create()`: the head rectangle at the spawn
point and nine body rectangles at multiples of `segment_spacing` to its
left. -/
noncomputable def centipedeCreate (x y size : ℝ) : CentipedeEnemy :=
  { x := x, y := y, speed := 4, segment_spacing := 1 * size, size := size,
    segs := (x, y) ::
      (List.range 9).map (fun i => (x - ((i : ℝ) + 1) * (1 * size), y)) }

/-- Embedding of `CentipedeEnemy.update`.  When the player coincides with
the tracked head, `dist = math.hypot(0,0) = 0` and `dx / dist` raises
`ZeroDivisionError` in Python, modelled as `none`.  Otherwise the head
advances by `speed` toward the player, the body loop runs against the old
head canvas position (the head's canvas rectangle is re-positioned only
after the loop), and the returned `Bool` records the inline collision
check against the new head position. -/
noncomputable def centipedeUpdate (player : ℝ × ℝ) (c : CentipedeEnemy) :
    Option (CentipedeEnemy × Bool) :=
  let dx := player.1 - c.x
  let dy := player.2 - c.y
  let dist := hypot dx dy
  if dist = 0 then none
  else
    let nx := c.x + dx / dist * c.speed
    let ny := c.y + dy / dist * c.speed
    let segs1 :=
      match c.segs with
      | [] => []
      | h :: t => (nx, ny) :: followSegs c.segment_spacing h t
    let hit := if nx < player.1 ∧ player.1 < nx + c.size ∧
        ny < player.2 ∧ player.2 < ny + c.size then true else false
    some ({ c with x := nx, y := ny, segs := segs1 }, hit)

/-! RandomWalkEnemy: fixed random step direction, no bounds checking. -/

/-- One of the two operators `random.choice` picks from. -/
inductive StepOp
  | plus
  | minus
deriving DecidableEq, Repr

/-- State of a `RandomWalkEnemy`: position, size (the generator passes
20), and the held operator list `self.op` (empty until the first update
stores one operator per axis). -/
structure RandomWalkEnemy where
  x : ℚ
  y : ℚ
  size : ℚ
  op : List StepOp
deriving DecidableEq, Repr

/-- Embedding of `Enemy.hits_player`: the player strictly inside the
size-square centered on the enemy. -/
def hits_player (x y size px py : ℚ) : Bool :=
  decide (x - size / 2 < px ∧ px < x + size / 2 ∧
    y - size / 2 < py ∧ py < y + size / 2)

/-- Embedding of `RandomWalkEnemy.update`, parametrized by this tick's two
`random.choice` draws (they only matter when `self.op` is still empty, in
which case they are stored).  The stored operators then move each axis by
one unit, and `hits_player` decides the `game_over_lose` request.  After
the first update `self.op` always holds two operators, so the `none`
arms of the index lookups are unreachable. -/
def randomWalkUpdate (rxOp ryOp : StepOp) (player : ℚ × ℚ)
    (e : RandomWalkEnemy) : RandomWalkEnemy × Bool :=
  let ops := if e.op = [] then [rxOp, ryOp] else e.op
  let x1 := match ops[0]? with
    | some .plus => e.x + 1
    | some .minus => e.x - 1
    | none => e.x
  let y1 := match ops[1]? with
    | some .plus => e.y + 1
    | some .minus => e.y - 1
    | none => e.y
  let e1 : RandomWalkEnemy := { e with x := x1, y := y1, op := ops }
  (e1, hits_player e1.x e1.y e1.size player.1 player.2)

/-! ShootingEnemy: stationary emplacement with a wall-clock fire cooldown
and a single replaceable projectile. -/

/-- A projectile turtle: position, fixed unit heading, visibility. -/
structure Ball where
  x : ℝ
  y : ℝ
  dirx : ℝ
  diry : ℝ
  visible : Bool

/-- Unit direction vector realized by turtle's `towards`/`setheading`:
aiming at one's own position gives `math.atan2(0, 0) = 0`, i.e. heading
east. -/
noncomputable def unitDir (dx dy : ℝ) : ℝ × ℝ :=
  if hypot dx dy = 0 then (1, 0)
  else (dx / hypot dx dy, dy / hypot dx dy)

/-- State of a `ShootingEnemy`: position, size and ball speed from the
generator (10, 10), the wall-clock time of the last shot, and the
projectile turtles created so far, newest first (`self.__ball` is the
head; older ones have been hidden and are never moved again). -/
structure ShootingEnemy where
  x : ℝ
  y : ℝ
  size : ℝ
  ball_speed : ℝ
  last_shot_time : ℚ
  balls : List Ball

/-- Embedding of `ShootingEnemy.__shoot_ball`: hide the current ball (if
any) and create a new visible ball at the enemy's position headed toward
the player's position at fire time. -/
noncomputable def shoot_ball (player : ℝ × ℝ) (s : ShootingEnemy) :
    ShootingEnemy :=
  let hidden := match s.balls with
    | [] => []
    | b :: rest => { b with visible := false } :: rest
  let d := unitDir (player.1 - s.x) (player.2 - s.y)
  { s with balls :=
      { x := s.x, y := s.y, dirx := d.1, diry := d.2, visible := true } :: hidden }

/-- Embedding of `ShootingEnemy.update` at wall-clock time `t` (Python
`time.time()`): fire if at least 1 second elapsed since `last_shot_time`
(updating `last_shot_time` to `t`), then advance the current visible ball
by `ball_speed` along its heading and request `game_over_lose` (the
returned `Bool`) when the moved ball is within `size` of the player, also
hiding the ball in that case. -/
noncomputable def shootingUpdate (t : ℚ) (player : ℝ × ℝ)
    (s : ShootingEnemy) : ShootingEnemy × Bool :=
  let s1 := if t - s.last_shot_time ≥ 1 then
      shoot_ball player { s with last_shot_time := t }
    else s
  match s1.balls with
  | [] => (s1, false)
  | b :: rest =>
    if b.visible then
      let b1 := { b with x := b.x + s.ball_speed * b.dirx,
                         y := b.y + s.ball_speed * b.diry }
      if distE (b1.x, b1.y) player < s.size then
        ({ s1 with balls := { b1 with visible := false } :: rest }, true)
      else
        ({ s1 with balls := b1 :: rest }, false)
    else (s1, false)

/-- All projectiles except the current one (the head) are hidden. -/
def tailHidden (s : ShootingEnemy) : Prop :=
  ∀ b ∈ s.balls.tail, b.visible = false

/-- Number of visible projectiles owned by a shooting enemy. -/
def liveCount (s : ShootingEnemy) : ℕ :=
  (s.balls.filter (fun b => b.visible)).length

/-- Spec-side collision predicate (the spec's common collision rule): the
player strictly inside the size-square anchored at the enemy's
position. -/
def specBoxHit (x y size px py : ℝ) : Prop :=
  x < px ∧ px < x + size ∧ y < py ∧ py < y + size

/-- Spec-side collision predicate over the integer fencing coordinates. -/
def specBoxHitZ (x y size px py : ℤ) : Prop :=
  x < px ∧ px < x + size ∧ y < py ∧ py < y + size

/-- Spec-side centered collision predicate, the symmetric form the spec
assigns to `RandomWalkEnemy`. -/
def specCenteredHit (x y size px py : ℚ) : Prop :=
  x - size / 2 < px ∧ px < x + size / 2 ∧ y - size / 2 < py ∧ py < y + size / 2

/-! Session orchestration: `TurtleAdventureGame`, `EnemyGenerator` and the
parts of `gamelib.Game` it relies on (the latter modelled from the spec,
as `gamelib.py` is not among the sources). -/

/-- Kind tag of a registered game element. -/
inductive EnemyKind
  | randomWalk
  | chasing
  | fencing
  | centipede
  | shooting
deriving DecidableEq, Repr

/-- A registered enemy as the session sees it: kind, spawn position, and
the fencing `spawnOpt` where applicable. -/
structure GEntity where
  kind : EnemyKind
  x : ℚ
  y : ℚ
  opt : Option ℕ
deriving DecidableEq, Repr

/-- Session state for the orchestration claims.  `enemies` and the Lose
banner count are `TurtleAdventureGame` state; `running` and `elements` are
modelled from the spec: `gamelib.Game` (not among the sources) keeps the
registration-ordered element list and halts the tick loop once a terminal
state is reached. -/
structure GameS where
  running : Bool
  elements : List GEntity
  enemies : List GEntity
  loseBanners : ℕ
deriving DecidableEq, Repr

/-- Modelled from the spec: `gamelib.Game.add_element` (gamelib.py is not
among the sources) registers an element at the end of the session's
registration-ordered element list. -/
def add_element (g : GameS) (e : GEntity) : GameS :=
  { g with elements := g.elements ++ [e] }

/-- Modelled from the spec: `gamelib.Game.stop` (gamelib.py is not among
the sources) makes the terminal state absorbing — it clears the running
flag that gates the tick loop. -/
def stop (g : GameS) : GameS := { g with running := false }

/-- `TurtleAdventureGame.add_enemy`: append to `enemies`, then register
via `add_element`. -/
def add_enemy (g : GameS) (e : GEntity) : GameS :=
  add_element { g with enemies := g.enemies ++ [e] } e

/-- `TurtleAdventureGame.game_over_lose`: stop the session and draw one
"You Lose" banner (each call issues one `canvas.create_text`, counted
here). -/
def game_over_lose (g : GameS) : GameS :=
  { stop g with loseBanners := g.loseBanners + 1 }

/-- Modelled from the spec: one update pass of the tick loop
(`gamelib.Game`, not among the sources, invokes `update()` on every
element in registration order within a single tick).  Each list entry
records whether that enemy's collision condition holds this tick; per the
source, each such enemy then calls `game_over_lose()` unconditionally. -/
def losePass (g : GameS) (hits : List Bool) : GameS :=
  hits.foldl (fun g h => if h then game_over_lose g else g) g

/-- `EnemyGenerator.create_randomWalkenemy` with this call's two `randint`
draws: builds a size-20 blue random-walker and registers it via
`add_element` only. -/
def create_randomWalkenemy (rx ry : ℚ) (g : GameS) : GameS :=
  add_element g ⟨.randomWalk, rx, ry, none⟩

/-- `EnemyGenerator.create_chasing` with this call's `randint` draws. -/
def create_chasing (rx ry : ℚ) (g : GameS) : GameS :=
  add_enemy g ⟨.chasing, rx, ry, none⟩

/-- `EnemyGenerator.create_fencing`: four fencing enemies with `spawnOpt`
0..3, each placed on its patrol corner by `create()`. -/
def create_fencing (g : GameS) : GameS :=
  (List.range 4).foldl (fun g i =>
    add_enemy g ⟨.fencing, ((fencingCreate i).x : ℚ), ((fencingCreate i).y : ℚ),
      some i⟩) g

/-- `EnemyGenerator.create_centipede` with this call's `randint` draws. -/
def create_centipede (rx ry : ℚ) (g : GameS) : GameS :=
  add_enemy g ⟨.centipede, rx, ry, none⟩

/-- `EnemyGenerator.create_ShootingEnemy` with this call's `randint`
draws. -/
def create_ShootingEnemy (rx ry : ℚ) (g : GameS) : GameS :=
  add_enemy g ⟨.shooting, rx, ry, none⟩

/-- One generator callback invocation together with its random draws. -/
inductive GenCall
  | randomWalk (rx ry : ℚ)
  | chasing (rx ry : ℚ)
  | fencing
  | centipede (rx ry : ℚ)
  | shooting (rx ry : ℚ)

/-- Execute one generator callback on the session. -/
def applyCall (g : GameS) : GenCall → GameS
  | .randomWalk rx ry => create_randomWalkenemy rx ry g
  | .chasing rx ry => create_chasing rx ry g
  | .fencing => create_fencing g
  | .centipede rx ry => create_centipede rx ry g
  | .shooting rx ry => create_ShootingEnemy rx ry g

/-- Execute a sequence of generator callbacks in order. -/
def applyCalls (g : GameS) (cs : List GenCall) : GameS := cs.foldl applyCall g

/-- Factory tags for the generator's delayed-callback schedule. -/
inductive FactoryTag
  | fencing
  | centipede
  | randomWalk
  | shooting
  | chasing
deriving DecidableEq, Repr

/-- Python's `range(start, stop, step)` for positive step. -/
def pyRange (start stp step : ℕ) : List ℕ :=
  (List.range ((stp - start + step - 1) / step)).map (fun k => start + step * k)

/-- The `after(delay, factory)` calls issued by `EnemyGenerator.__init__`,
in order. -/
def schedule : List (ℕ × FactoryTag) :=
  [(100, .fencing), (100, .centipede), (100, .randomWalk)] ++
    (List.range 5).map (fun _ => (100, .shooting)) ++
    (pyRange 1000 100000 1000).map (fun d => (d, .randomWalk)) ++
    (pyRange 1000 10000 1000).map (fun d => (d, .chasing))

/-- The spawn plan as the spec states it: after a minimal delay (100 ms)
one fencing set, one centipede, one random-walker and five shooters; then
one random-walker every 1000 ms of game time up to 100000 ms and one
chaser every 1000 ms up to 10000 ms. -/
def specPlan : List (ℕ × FactoryTag) :=
  [(100, .fencing), (100, .centipede), (100, .randomWalk)] ++
    List.replicate 5 (100, .shooting) ++
    (List.range 99).map (fun k => (1000 * (k + 1), .randomWalk)) ++
    (List.range 9).map (fun k => (1000 * (k + 1), .chasing))

/-! Geometry lemmas, followed by the claim theorems and their witnesses. -/

theorem hypot_nonneg (dx dy : ℝ) : 0 ≤ hypot dx dy := Real.sqrt_nonneg _

/-- `math.hypot` vanishes exactly on the zero vector. -/
theorem hypot_eq_zero_iff {dx dy : ℝ} : hypot dx dy = 0 ↔ dx = 0 ∧ dy = 0 := by
  rw [hypot, Real.sqrt_eq_zero (by positivity)]
  constructor
  · intro h
    constructor <;> nlinarith [sq_nonneg dx, sq_nonneg dy]
  · rintro ⟨h1, h2⟩
    simp [h1, h2]

/-- Axis-aligned case of `math.hypot`. -/
theorem hypot_x (a : ℝ) : hypot a 0 = |a| := by
  rw [hypot]
  norm_num [Real.sqrt_sq_eq_abs]

theorem hypot_neg (a b : ℝ) : hypot (-a) (-b) = hypot a b := by
  rw [hypot, hypot]
  ring_nf

/-- Absolute homogeneity of `math.hypot`. -/
theorem hypot_smul (c a b : ℝ) : hypot (c * a) (c * b) = |c| * hypot a b := by
  rw [hypot, hypot, show (c * a) ^ 2 + (c * b) ^ 2 = c ^ 2 * (a ^ 2 + b ^ 2) by ring,
    Real.sqrt_mul (sq_nonneg c), Real.sqrt_sq_eq_abs]

/-- `hypot` agrees with the complex absolute value, giving access to the
triangle inequality. -/
theorem hypot_eq_complex (a b : ℝ) : hypot a b = Complex.abs ⟨a, b⟩ := by
  rw [Complex.abs_apply, Complex.normSq_mk, hypot]
  ring_nf

theorem hypot_triangle (a1 a2 b1 b2 : ℝ) :
    hypot (a1 + b1) (a2 + b2) ≤ hypot a1 a2 + hypot b1 b2 := by
  rw [hypot_eq_complex, hypot_eq_complex, hypot_eq_complex]
  have h : (⟨a1 + b1, a2 + b2⟩ : ℂ) = ⟨a1, a2⟩ + ⟨b1, b2⟩ := by
    apply Complex.ext <;> simp
  rw [h]
  exact Complex.abs.add_le _ _

/-- Triangle inequality for the embedded Euclidean distance. -/
theorem distE_triangle (a b c : ℝ × ℝ) : distE a c ≤ distE a b + distE b c := by
  have h1 : a.1 - c.1 = (a.1 - b.1) + (b.1 - c.1) := by ring
  have h2 : a.2 - c.2 = (a.2 - b.2) + (b.2 - c.2) := by ring
  rw [distE, h1, h2]
  exact hypot_triangle _ _ _ _

theorem distE_symm (p q : ℝ × ℝ) : distE p q = distE q p := by
  rw [distE, distE, show q.1 - p.1 = -(p.1 - q.1) by ring,
    show q.2 - p.2 = -(p.2 - q.2) by ring, hypot_neg]

set_option maxRecDepth 100000 in
set_option maxHeartbeats 1000000 in
/-- C6: each of the four fencing enemies starts at its respective corner of
the rectangle (660,210)-(720,210)-(720,270)-(660,270); every edge move is by
exactly the constant speed 5 along one axis; the whole trajectory stays on
the rectangle's perimeter; and after one full loop (45 ticks, the three
intermediate corner ticks each combining the arrival step with the first
step of the next edge) the enemy is back at its start corner. -/
theorem C6_fencing_loop :
    (fencingCreate 1).x = 660 ∧ (fencingCreate 1).y = 210 ∧
    (fencingCreate 0).x = 720 ∧ (fencingCreate 0).y = 270 ∧
    (fencingCreate 2).x = 720 ∧ (fencingCreate 2).y = 210 ∧
    (fencingCreate 3).x = 660 ∧ (fencingCreate 3).y = 270 ∧
    (∀ opt : Fin 4, fencingStep^[45] (fencingCreate opt.val) = fencingCreate opt.val) ∧
    (∀ opt : Fin 4, ∀ k : Fin 46, onPerimeter (fencingStep^[k.val] (fencingCreate opt.val))) ∧
    (∀ opt : Fin 4, ∀ k : Fin 46,
      let e := fencingStep^[k.val] (fencingCreate opt.val)
      let e1 := fencingStep e
      (e1.x - e.x = 0 ∨ e1.x - e.x = 5 ∨ e1.x - e.x = -5) ∧
      (e1.y - e.y = 0 ∨ e1.y - e.y = 5 ∨ e1.y - e.y = -5)) ∧
    (∀ opt : Fin 4, ∀ k : Fin 46,
      (fencingUpdate (50, 250) (fencingStep^[k.val] (fencingCreate opt.val))).2 = false) := by
  decide

/-- Evaluation of one chasing update: enemy at (700,100), speed 3, size 20,
player at (0,100); the enemy moves straight left to 697 and no clamp or
collision fires. -/
theorem chasingUpdate_example :
    chasingUpdate (0, 100) ⟨700, 100, 3, 20⟩ = some (⟨697, 100, 3, 20⟩, false) := by
  have h700 : hypot ((0:ℝ) - 700) (100 - 100) = 700 := by
    norm_num [hypot_neg, hypot_x]
  simp only [chasingUpdate, h700]
  norm_num [SCREEN_WIDTH, SCREEN_HEIGHT]

/-- C5 counterexample: the claim quantifies over every session screen size,
but the code clamps against the module constants 800 × 500.  In a session
constructed with screen size 400 × 500, a chasing enemy at (700,100)
(player at (0,100)) completes an update at x = 697, outside
[0, 400 − 20] × [0, 500 − 20]; the claimed invariant fails. -/
theorem C5_counterexample :
    chasingUpdate (0, 100) ⟨700, 100, 3, 20⟩ = some (⟨697, 100, 3, 20⟩, false) ∧
    ¬ chasingInBounds ⟨400, 500⟩ ⟨697, 100, 3, 20⟩ := by
  refine ⟨chasingUpdate_example, ?_⟩
  simp only [chasingInBounds]
  norm_num

/-- C5 (amended): after every call to `ChasingEnemy.update` that completes
normally (the enemy is not exactly at the player, which would raise
`ZeroDivisionError`), the enemy's position lies within
[0, 800 − size] × [0, 500 − size], where 800 × 500 are the module constants
`SCREEN_WIDTH`/`SCREEN_HEIGHT` — not the session's screen size, with which
they coincide only for the default 800 × 500 session. -/
theorem C5_amended (player : ℝ × ℝ) (e r : ChasingEnemy) (hit : Bool)
    (h : chasingUpdate player e = some (r, hit)) (hs : e.size ≤ 500) :
    0 ≤ r.x ∧ r.x ≤ SCREEN_WIDTH - r.size ∧
      0 ≤ r.y ∧ r.y ≤ SCREEN_HEIGHT - r.size := by
  simp only [chasingUpdate, SCREEN_WIDTH, SCREEN_HEIGHT] at h ⊢
  by_cases hd : hypot (player.1 - e.x) (player.2 - e.y) = 0
  · rw [if_pos hd] at h
    exact Option.noConfusion h
  · rw [if_neg hd] at h
    simp only [Option.some.injEq, Prod.mk.injEq] at h
    obtain ⟨hr, -⟩ := h
    subst hr
    refine ⟨?_, ?_, ?_, ?_⟩ <;> dsimp only <;> split_ifs <;> linarith

/-- C5 witness: the amended theorem applied to the concrete update computed
in `chasingUpdate_example`. -/
theorem C5_witness :
    (20:ℝ) ≤ 500 ∧
      (0 ≤ (697:ℝ) ∧ (697:ℝ) ≤ SCREEN_WIDTH - 20 ∧
        0 ≤ (100:ℝ) ∧ (100:ℝ) ≤ SCREEN_HEIGHT - 20) :=
  ⟨by norm_num,
    C5_amended (0, 100) ⟨700, 100, 3, 20⟩ ⟨697, 100, 3, 20⟩ false
      chasingUpdate_example (by norm_num)⟩

/-- After one body-loop iteration the segment is within `spacing` of its
predecessor: if it moved, the separation is exactly `spacing`; if not, the
separation already was at most `spacing`. -/
theorem adjustSeg_dist_le (spacing : ℝ) (hsp : 0 ≤ spacing) (prev s : ℝ × ℝ) :
    distE (adjustSeg spacing prev s) prev ≤ spacing := by
  simp only [adjustSeg]
  split_ifs with h
  · have hd : 0 < hypot (prev.1 - s.1) (prev.2 - s.2) := lt_of_le_of_lt hsp h
    have e1 : s.1 + (prev.1 - s.1) / hypot (prev.1 - s.1) (prev.2 - s.2) *
          (hypot (prev.1 - s.1) (prev.2 - s.2) - spacing) - prev.1 =
        (-(spacing / hypot (prev.1 - s.1) (prev.2 - s.2))) * (prev.1 - s.1) := by
      field_simp
      ring
    have e2 : s.2 + (prev.2 - s.2) / hypot (prev.1 - s.1) (prev.2 - s.2) *
          (hypot (prev.1 - s.1) (prev.2 - s.2) - spacing) - prev.2 =
        (-(spacing / hypot (prev.1 - s.1) (prev.2 - s.2))) * (prev.2 - s.2) := by
      field_simp
      ring
    rw [distE]
    simp only
    rw [e1, e2, hypot_smul, abs_neg, abs_of_nonneg (div_nonneg hsp hd.le),
      div_mul_cancel₀ _ (ne_of_gt hd)]
  · push_neg at h
    rw [distE, show s.1 - prev.1 = -(prev.1 - s.1) by ring,
      show s.2 - prev.2 = -(prev.2 - s.2) by ring, hypot_neg]
    exact h

/-- Along the updated body chain, every segment is within `spacing` of its
(already updated) predecessor. -/
theorem followSegs_chain (spacing : ℝ) (hsp : 0 ≤ spacing) :
    ∀ (l : List (ℝ × ℝ)) (prev : ℝ × ℝ),
      List.Chain' (fun a b => distE b a ≤ spacing) (prev :: followSegs spacing prev l)
  | [], _ => List.chain'_singleton _
  | s :: rest, prev => by
    simp only [followSegs]
    exact List.Chain'.cons (adjustSeg_dist_le spacing hsp prev s)
      (followSegs_chain spacing hsp rest (adjustSeg spacing prev s))

theorem followSegs_length (spacing : ℝ) :
    ∀ (l : List (ℝ × ℝ)) (prev : ℝ × ℝ), (followSegs spacing prev l).length = l.length
  | [], _ => rfl
  | s :: rest, prev => by
    simp only [followSegs, List.length_cons]
    rw [followSegs_length spacing rest (adjustSeg spacing prev s)]

/-- Moving from a point by `sp` along the unit vector `(dx, dy) / hypot`
covers distance exactly `sp`. -/
theorem pursuit_step_dist (dx dy sp : ℝ) (hd : hypot dx dy ≠ 0) (hsp : 0 ≤ sp)
    (x y : ℝ) :
    distE (x, y) (x + dx / hypot dx dy * sp, y + dy / hypot dx dy * sp) = sp := by
  have hd0 : 0 < hypot dx dy := lt_of_le_of_ne (hypot_nonneg dx dy) (Ne.symm hd)
  rw [distE]
  simp only
  rw [show x - (x + dx / hypot dx dy * sp) = (-(sp / hypot dx dy)) * dx by
      ring,
    show y - (y + dy / hypot dx dy * sp) = (-(sp / hypot dx dy)) * dy by
      ring,
    hypot_smul, abs_neg, abs_of_nonneg (div_nonneg hsp hd0.le),
    div_mul_cancel₀ _ (ne_of_gt hd0)]

/-- C4 (amended): after every completed `CentipedeEnemy.update` (head not
exactly on the player) from a state whose head canvas rectangle agrees
with the tracked head position, the chain keeps its length and order with
the head re-positioned last (index 0 holds the new tracked position); for
every i ≥ 2 the separation of segment i from segment i−1 is at most
`segment_spacing`; but segment 1 is corrected against the head's PRIOR
position before the head rectangle is moved, so its separation from the
head is only bounded by `segment_spacing + speed`, not by
`segment_spacing` as the claim states. -/
theorem C4_amended (player : ℝ × ℝ) (c r : CentipedeEnemy) (hit : Bool)
    (h : centipedeUpdate player c = some (r, hit))
    (hsp : 0 ≤ c.segment_spacing) (hspe : 0 ≤ c.speed)
    (hhead : c.segs.head? = some (c.x, c.y)) :
    r.segs.length = c.segs.length ∧
    r.segs.head? = some (r.x, r.y) ∧
    (∀ i : ℕ, ∀ hi : i < r.segs.length, 2 ≤ i →
      distE (r.segs.get ⟨i, hi⟩) (r.segs.get ⟨i - 1, by omega⟩) ≤
        c.segment_spacing) ∧
    (∀ h1 : 1 < r.segs.length,
      distE (r.segs.get ⟨1, h1⟩) (r.segs.get ⟨0, by omega⟩) ≤
        c.segment_spacing + c.speed) := by
  obtain ⟨t, hcs⟩ : ∃ t, c.segs = (c.x, c.y) :: t := by
    cases hc : c.segs with
    | nil => rw [hc] at hhead; exact absurd hhead (by simp)
    | cons a t =>
      rw [hc] at hhead
      simp only [List.head?_cons, Option.some.injEq] at hhead
      subst hhead
      exact ⟨t, rfl⟩
  simp only [centipedeUpdate] at h
  by_cases hd : hypot (player.1 - c.x) (player.2 - c.y) = 0
  · rw [if_pos hd] at h
    exact Option.noConfusion h
  rw [if_neg hd, hcs] at h
  simp only [Option.some.injEq, Prod.mk.injEq] at h
  obtain ⟨hr, -⟩ := h
  subst hr
  refine ⟨?_, ?_, ?_, ?_⟩
  · simp [hcs, followSegs_length]
  · simp
  · intro i hi h2
    obtain ⟨j, rfl⟩ : ∃ j, i = j + 2 := ⟨i - 2, by omega⟩
    have hch := (followSegs_chain c.segment_spacing hsp t (c.x, c.y)).tail
    simp only [List.tail_cons] at hch
    have hlen : (followSegs c.segment_spacing (c.x, c.y) t).length = t.length :=
      followSegs_length _ _ _
    simp only [List.length_cons] at hi
    have hj : j < (followSegs c.segment_spacing (c.x, c.y) t).length - 1 := by
      omega
    have := List.chain'_iff_get.mp hch j hj
    simpa using this
  · intro h1
    cases t with
    | nil => simp [followSegs] at h1
    | cons s rest =>
      simp only [followSegs, List.get_cons_succ, List.get_cons_zero]
      have hA : distE (adjustSeg c.segment_spacing (c.x, c.y) s) (c.x, c.y) ≤
          c.segment_spacing := adjustSeg_dist_le _ hsp _ _
      have hB : distE ((c.x, c.y) : ℝ × ℝ)
          (c.x + (player.1 - c.x) / hypot (player.1 - c.x) (player.2 - c.y) * c.speed,
            c.y + (player.2 - c.y) / hypot (player.1 - c.x) (player.2 - c.y) * c.speed) =
          c.speed := pursuit_step_dist _ _ _ hd hspe _ _
      calc distE (adjustSeg c.segment_spacing (c.x, c.y) s)
            (c.x + (player.1 - c.x) / hypot (player.1 - c.x) (player.2 - c.y) * c.speed,
              c.y + (player.2 - c.y) / hypot (player.1 - c.x) (player.2 - c.y) * c.speed) ≤
          distE (adjustSeg c.segment_spacing (c.x, c.y) s) (c.x, c.y) +
            distE ((c.x, c.y) : ℝ × ℝ)
              (c.x + (player.1 - c.x) / hypot (player.1 - c.x) (player.2 - c.y) * c.speed,
                c.y + (player.2 - c.y) / hypot (player.1 - c.x) (player.2 - c.y) * c.speed) :=
          distE_triangle _ _ _
        _ ≤ c.segment_spacing + c.speed := by rw [hB]; linarith

/-- The freshly created centipede at spawn position (100, 0): head at
(100,0), nine body rectangles spaced 10 apart to its left. -/
theorem centipedeCreate_example :
    centipedeCreate 100 0 10 =
      { x := 100, y := 0, speed := 4, segment_spacing := 10, size := 10,
        segs := [(100, 0), (90, 0), (80, 0), (70, 0), (60, 0), (50, 0),
                 (40, 0), (30, 0), (20, 0), (10, 0)] } := by
  simp only [centipedeCreate, CentipedeEnemy.mk.injEq]
  norm_num [List.range_succ, Prod.ext_iff]

/-- Evaluation of one centipede update from the freshly created state at
(100, 0) with the player at (700, 0): the head advances to (104, 0), no
body segment moves (all separations are exactly 10), and no collision
fires. -/
theorem centipedeUpdate_example :
    centipedeUpdate (700, 0) (centipedeCreate 100 0 10) =
      some ({ x := 104, y := 0, speed := 4, segment_spacing := 10, size := 10,
              segs := [(104, 0), (90, 0), (80, 0), (70, 0), (60, 0), (50, 0),
                       (40, 0), (30, 0), (20, 0), (10, 0)] }, false) := by
  rw [centipedeCreate_example]
  simp only [centipedeUpdate]
  norm_num [followSegs, adjustSeg, hypot_x, CentipedeEnemy.mk.injEq, Prod.ext_iff]

/-- C4 counterexample: for the centipede created at (100, 0) with the
player at (700, 0), the update completes with head rectangle (segment 0)
at (104, 0) while segment 1 stays at (90, 0); their separation is 14,
which exceeds `segment_spacing = 10`.  The claimed bound fails at i = 1
because the head rectangle is re-positioned after the body loop. -/
theorem C4_counterexample :
    centipedeUpdate (700, 0) (centipedeCreate 100 0 10) =
      some ({ x := 104, y := 0, speed := 4, segment_spacing := 10, size := 10,
              segs := [(104, 0), (90, 0), (80, 0), (70, 0), (60, 0), (50, 0),
                       (40, 0), (30, 0), (20, 0), (10, 0)] }, false) ∧
    ¬ (distE ((90 : ℝ), (0 : ℝ)) ((104 : ℝ), (0 : ℝ)) ≤ 10) := by
  refine ⟨centipedeUpdate_example, ?_⟩
  rw [distE]
  norm_num [hypot_neg, hypot_x]

/-- Evaluation of a centipede update on a minimal two-segment state used
as the witness input: head tracked at (0,0), both rectangles at (0,0),
player at (600, 0). -/
theorem centipedeUpdate_small :
    centipedeUpdate (600, 0) ⟨0, 0, 4, 10, 10, [(0, 0), (0, 0)]⟩ =
      some (⟨4, 0, 4, 10, 10, [(4, 0), (0, 0)]⟩, false) := by
  simp only [centipedeUpdate]
  norm_num [followSegs, adjustSeg, hypot_x, CentipedeEnemy.mk.injEq, Prod.ext_iff]

/-- C4 witness: the amended theorem applied to the concrete update of
`centipedeUpdate_small`. -/
theorem C4_witness :
    (0 : ℝ) ≤ 10 ∧ (0 : ℝ) ≤ 4 ∧
      distE ((0 : ℝ), (0 : ℝ)) ((4 : ℝ), (0 : ℝ)) ≤ 10 + 4 := by
  refine ⟨by norm_num, by norm_num, ?_⟩
  have h := C4_amended (600, 0) ⟨0, 0, 4, 10, 10, [(0, 0), (0, 0)]⟩
    ⟨4, 0, 4, 10, 10, [(4, 0), (0, 0)]⟩ false centipedeUpdate_small
    (by norm_num) (by norm_num) rfl
  have h2 := h.2.2.2 (by norm_num)
  simpa using h2

/-- C3: when a pursuing enemy's position coincides exactly with the
player's, `dist = math.hypot(0,0) = 0` and the next line divides by zero:
in Python this raises `ZeroDivisionError` out of `update()` (modelled as
`none`) instead of skipping the move for that tick as the specification
requires.  Shown for `ChasingEnemy.update` at (100,100) and for
`CentipedeEnemy.update` with the freshly created centipede at (100,100),
player at (100,100) in both cases. -/
theorem C3_zero_vector_fault :
    chasingUpdate (100, 100) ⟨100, 100, 3, 20⟩ = none ∧
    centipedeUpdate (100, 100) (centipedeCreate 100 100 10) = none := by
  constructor
  · simp only [chasingUpdate]
    norm_num [hypot_eq_zero_iff]
  · simp only [centipedeUpdate, centipedeCreate]
    norm_num [hypot_eq_zero_iff]

theorem shoot_ball_last (player : ℝ × ℝ) (s : ShootingEnemy) :
    (shoot_ball player s).last_shot_time = s.last_shot_time := rfl

/-- The updated `last_shot_time`: set to the current time exactly when the
1-second cooldown has elapsed. -/
theorem shootingUpdate_last (t : ℚ) (player : ℝ × ℝ) (s : ShootingEnemy) :
    (shootingUpdate t player s).1.last_shot_time =
      if t - s.last_shot_time ≥ 1 then t else s.last_shot_time := by
  simp only [shootingUpdate]
  split_ifs with hf
  · rcases hb : (shoot_ball player { s with last_shot_time := t }).balls with - | ⟨b, rest⟩
    · simp [hb, shoot_ball]
    · simp only [hb]
      split_ifs <;> simp [shoot_ball]
  · rcases hb : s.balls with - | ⟨b, rest⟩
    · simp [hb]
    · simp only [hb]
      split_ifs <;> simp

/-- A non-firing update creates no projectile. -/
theorem shootingUpdate_len_of_not_fire (t : ℚ) (player : ℝ × ℝ)
    (s : ShootingEnemy) (hf : ¬ t - s.last_shot_time ≥ 1) :
    (shootingUpdate t player s).1.balls.length = s.balls.length := by
  simp only [shootingUpdate, if_neg hf]
  rcases hb : s.balls with - | ⟨b, rest⟩
  · simp [hb]
  · simp only [hb]
    split_ifs <;> simp [hb]

/-- A firing update aims the new projectile at the player's position at
fire time; the move of the same tick does not change its heading. -/
theorem shootingUpdate_dir_of_fire (t : ℚ) (player : ℝ × ℝ)
    (s : ShootingEnemy) (hf : t - s.last_shot_time ≥ 1) :
    ∀ b, (shootingUpdate t player s).1.balls.head? = some b →
      (b.dirx, b.diry) = unitDir (player.1 - s.x) (player.2 - s.y) := by
  intro b hb
  simp only [shootingUpdate, if_pos hf, shoot_ball] at hb
  split_ifs at hb <;>
    simp only [List.head?_cons, Option.some.injEq] at hb <;>
    subst hb <;>
    exact Prod.mk.eta

/-- In every branch of the update, the projectiles other than the current
head are exactly those already present after the (possible) shot. -/
theorem shootingUpdate_balls_tail (t : ℚ) (player : ℝ × ℝ)
    (s : ShootingEnemy) :
    (shootingUpdate t player s).1.balls.tail =
      (if t - s.last_shot_time ≥ 1 then
        shoot_ball player { s with last_shot_time := t } else s).balls.tail := by
  simp only [shootingUpdate]
  split_ifs with hf
  · rcases hb : (shoot_ball player { s with last_shot_time := t }).balls with - | ⟨b, rest⟩
    · simp [hb]
    · simp only [hb]
      split_ifs <;> simp [hb]
  · rcases hb : s.balls with - | ⟨b, rest⟩
    · simp [hb]
    · simp only [hb]
      split_ifs <;> simp [hb]

/-- Updates preserve the all-but-head-hidden invariant: a firing update
hides the previous head and pushes the new ball on top; the move phase
only touches the head. -/
theorem shootingUpdate_tailHidden (t : ℚ) (player : ℝ × ℝ)
    (s : ShootingEnemy) (h : tailHidden s) :
    tailHidden (shootingUpdate t player s).1 := by
  intro b hb
  rw [shootingUpdate_balls_tail] at hb
  split_ifs at hb with hf
  · simp only [shoot_ball, List.tail_cons] at hb
    rcases hs : s.balls with - | ⟨b0, rest⟩
    · simp only [hs] at hb
      simp at hb
    · simp only [hs] at hb
      simp only [List.mem_cons] at hb
      rcases hb with h1 | h1
      · rw [h1]
      · exact h b (by rw [hs, List.tail_cons]; exact h1)
  · exact h b hb

/-- With all but the head hidden, at most one projectile is visible. -/
theorem liveCount_le_one_of_tailHidden (s : ShootingEnemy)
    (h : tailHidden s) : liveCount s ≤ 1 := by
  rcases hs : s.balls with - | ⟨b, rest⟩
  · simp [liveCount, hs]
  · have hrest : rest.filter (fun b => b.visible) = [] := by
      rw [List.filter_eq_nil_iff]
      intro a ha
      have := h a (by rw [hs, List.tail_cons]; exact ha)
      simp [this]
    rcases hv : b.visible <;>
      simp [liveCount, hs, List.filter_cons, hv, hrest]

/-- When the update requests a Lose, the projectile has been hidden. -/
theorem shootingUpdate_lose_hides (t : ℚ) (player : ℝ × ℝ)
    (s : ShootingEnemy) (hl : (shootingUpdate t player s).2 = true) :
    ∀ b, (shootingUpdate t player s).1.balls.head? = some b →
      b.visible = false := by
  intro b hb
  simp only [shootingUpdate] at hl hb
  split_ifs at hl hb with hf
  · rcases hs : (shoot_ball player { s with last_shot_time := t }).balls with - | ⟨b0, rest⟩
    · simp only [hs] at hl
      simp at hl
    · simp only [hs] at hl hb
      split_ifs at hl hb
      simp at hb
      subst hb
      rfl
  · rcases hs : s.balls with - | ⟨b0, rest⟩
    · simp only [hs] at hl
      simp at hl
    · simp only [hs] at hl hb
      split_ifs at hl hb
      simp at hb
      subst hb
      rfl

/-- C7: a shooting enemy fires at most one projectile per 1-second window
of wall-clock time (a firing update stamps `last_shot_time` with the fire
time, so two consecutive fires are at least 1 second apart, and a
non-firing update creates no projectile); each shot is aimed at the
player's position at fire time; at most one live projectile exists per
enemy because each shot hides the previous projectile (all projectiles
except the current head stay hidden, so at most one is visible); and the
projectile is hidden when it triggers Lose. -/
theorem C7_shooting :
    (∀ (t : ℚ) (player : ℝ × ℝ) (s : ShootingEnemy),
      t - s.last_shot_time ≥ 1 →
        (shootingUpdate t player s).1.last_shot_time = t) ∧
    (∀ (t : ℚ) (player : ℝ × ℝ) (s : ShootingEnemy),
      ¬ t - s.last_shot_time ≥ 1 →
        (shootingUpdate t player s).1.last_shot_time = s.last_shot_time ∧
        (shootingUpdate t player s).1.balls.length = s.balls.length) ∧
    (∀ (t1 t2 : ℚ) (p1 : ℝ × ℝ) (s : ShootingEnemy),
      t1 - s.last_shot_time ≥ 1 →
      t2 - (shootingUpdate t1 p1 s).1.last_shot_time ≥ 1 →
        t2 - t1 ≥ 1) ∧
    (∀ (t : ℚ) (player : ℝ × ℝ) (s : ShootingEnemy),
      t - s.last_shot_time ≥ 1 →
        ∀ b, (shootingUpdate t player s).1.balls.head? = some b →
          (b.dirx, b.diry) = unitDir (player.1 - s.x) (player.2 - s.y)) ∧
    (∀ (t : ℚ) (player : ℝ × ℝ) (s : ShootingEnemy),
      tailHidden s →
        tailHidden (shootingUpdate t player s).1 ∧
        liveCount (shootingUpdate t player s).1 ≤ 1) ∧
    (∀ (t : ℚ) (player : ℝ × ℝ) (s : ShootingEnemy),
      (shootingUpdate t player s).2 = true →
        ∀ b, (shootingUpdate t player s).1.balls.head? = some b →
          b.visible = false) := by
  refine ⟨?_, ?_, ?_, ?_, ?_, ?_⟩
  · intro t player s hf
    rw [shootingUpdate_last, if_pos hf]
  · intro t player s hf
    exact ⟨by rw [shootingUpdate_last, if_neg hf],
      shootingUpdate_len_of_not_fire t player s hf⟩
  · intro t1 t2 p1 s hf1 hf2
    rw [shootingUpdate_last, if_pos hf1] at hf2
    linarith
  · exact shootingUpdate_dir_of_fire
  · intro t player s h
    have h1 := shootingUpdate_tailHidden t player s h
    exact ⟨h1, liveCount_le_one_of_tailHidden _ h1⟩
  · exact shootingUpdate_lose_hides

/-- Evaluation of one shooting update: enemy at (0,0), size 10, ball
speed 10, last shot at time 0, no projectile yet; at time 1 with the
player at (20,0) it fires east, the new ball advances to (10,0), and no
hit occurs (distance to the player is exactly 10, not less). -/
theorem shootingUpdate_example :
    shootingUpdate 1 (20, 0) ⟨0, 0, 10, 10, 0, []⟩ =
      (⟨0, 0, 10, 10, 1, [⟨10, 0, 1, 0, true⟩]⟩, false) := by
  have hu : unitDir ((20 : ℝ) - 0) ((0 : ℝ) - 0) = (1, 0) := by
    rw [unitDir, if_neg (by norm_num [hypot_x])]
    norm_num [hypot_x]
  simp only [shootingUpdate, shoot_ball]
  rw [if_pos (by norm_num)]
  simp only [hu]
  norm_num [distE, hypot_x, Prod.ext_iff, ShootingEnemy.mk.injEq, Ball.mk.injEq]

/-- C7 witness: the cadence and clock-stamp parts of `C7_shooting` applied
to a concrete firing update at time 1 from `last_shot_time = 0`, and the
liveness part applied to the empty-projectile state. -/
theorem C7_witness :
    ((1 : ℚ) - (0 : ℚ) ≥ 1) ∧
    (shootingUpdate 1 (20, 0) ⟨0, 0, 10, 10, 0, []⟩).1.last_shot_time = 1 ∧
    liveCount (shootingUpdate 1 (20, 0) ⟨0, 0, 10, 10, 0, []⟩).1 ≤ 1 ∧
    (2 : ℚ) - 1 ≥ 1 := by
  refine ⟨by norm_num, ?_, ?_, ?_⟩
  · exact C7_shooting.1 1 (20, 0) ⟨0, 0, 10, 10, 0, []⟩ (by norm_num)
  · exact (C7_shooting.2.2.2.2.1 1 (20, 0) ⟨0, 0, 10, 10, 0, []⟩
      (by intro b hb; simp at hb)).2
  · refine C7_shooting.2.2.1 1 2 (20, 0) ⟨0, 0, 10, 10, 0, []⟩ (by norm_num) ?_
    rw [shootingUpdate_example]
    norm_num

/-- A Boolean `if` over a decidable proposition equals `true` exactly when
the proposition holds. -/
theorem ite_bool_eq_true_iff (p : Prop) [Decidable p] :
    (if p then true else false) = true ↔ p := by
  split_ifs with h <;> simp [h]

/-- C9 (amended): the Lose-triggering predicates of the box-checking
enemies match the spec's rule — `ChasingEnemy`, `FencingEnemy` and
`CentipedeEnemy` (on its head) trigger exactly when the player is strictly
inside the corner-anchored size-square at the post-move position, and
`RandomWalkEnemy` exactly when the player is strictly inside the centered
square — and a `RandomWalkEnemy` at (100,100) with the player at (100,100)
triggers Lose on its first update for every random direction choice.
`ShootingEnemy` is the exception the claim misses: it has no box check
(see the counterexample). -/
theorem C9_amended :
    (∀ (player : ℝ × ℝ) (e r : ChasingEnemy) (hit : Bool),
      chasingUpdate player e = some (r, hit) →
        (hit = true ↔ specBoxHit r.x r.y e.size player.1 player.2)) ∧
    (∀ (player : ℤ × ℤ) (e : FencingEnemy),
      (fencingUpdate player e).2 = true ↔
        specBoxHitZ (fencingUpdate player e).1.x (fencingUpdate player e).1.y
          e.size player.1 player.2) ∧
    (∀ (player : ℝ × ℝ) (c r : CentipedeEnemy) (hit : Bool),
      centipedeUpdate player c = some (r, hit) →
        (hit = true ↔ specBoxHit r.x r.y c.size player.1 player.2)) ∧
    (∀ (o1 o2 : StepOp) (player : ℚ × ℚ) (e : RandomWalkEnemy),
      (randomWalkUpdate o1 o2 player e).2 = true ↔
        specCenteredHit (randomWalkUpdate o1 o2 player e).1.x
          (randomWalkUpdate o1 o2 player e).1.y e.size player.1 player.2) ∧
    (∀ o1 o2 : StepOp,
      (randomWalkUpdate o1 o2 (100, 100) ⟨100, 100, 20, []⟩).2 = true) := by
  refine ⟨?_, ?_, ?_, ?_, ?_⟩
  · intro player e r hit h
    simp only [chasingUpdate] at h
    by_cases hd : hypot (player.1 - e.x) (player.2 - e.y) = 0
    · rw [if_pos hd] at h
      exact Option.noConfusion h
    rw [if_neg hd] at h
    simp only [Option.some.injEq, Prod.mk.injEq] at h
    obtain ⟨hr, hh⟩ := h
    subst hr
    subst hh
    dsimp only
    simp only [specBoxHit]
    exact ite_bool_eq_true_iff _
  · intro player e
    simp only [fencingUpdate, specBoxHitZ]
    simp [decide_eq_true_iff]
  · intro player c r hit h
    simp only [centipedeUpdate] at h
    by_cases hd : hypot (player.1 - c.x) (player.2 - c.y) = 0
    · rw [if_pos hd] at h
      exact Option.noConfusion h
    rw [if_neg hd] at h
    simp only [Option.some.injEq, Prod.mk.injEq] at h
    obtain ⟨hr, hh⟩ := h
    subst hr
    subst hh
    dsimp only
    simp only [specBoxHit]
    exact ite_bool_eq_true_iff _
  · intro o1 o2 player e
    simp only [randomWalkUpdate, hits_player, specCenteredHit]
    simp [decide_eq_true_iff]
  · intro o1 o2
    cases o1 <;> cases o2 <;>
      norm_num [randomWalkUpdate, hits_player, decide_eq_true_iff]

/-- C9 counterexample: a `ShootingEnemy` of size 10 at (100,100) with the
player strictly inside its corner-anchored box at (105,105) does not
request Lose on an update (here with no live projectile and the cooldown
not elapsed): its Lose condition is projectile distance, not the common
box rule, so the claim's "for every enemy" fails. -/
theorem C9_counterexample :
    specBoxHit 100 100 10 105 105 ∧
    shootingUpdate 0 (105, 105) ⟨100, 100, 10, 10, 0, []⟩ =
      (⟨100, 100, 10, 10, 0, []⟩, false) := by
  constructor
  · norm_num [specBoxHit]
  · simp only [shootingUpdate]
    rw [if_neg (by norm_num)]

/-- C9 witness: the amended theorem applied at the concrete scenario input
(the zero-distance random-walk collision) and at the concrete chasing
update of `chasingUpdate_example`, whose Lose request is `false` and whose
box condition is accordingly violated. -/
theorem C9_witness :
    (randomWalkUpdate StepOp.plus StepOp.plus (100, 100) ⟨100, 100, 20, []⟩).2 = true ∧
      ¬ specBoxHit 697 100 20 0 100 := by
  constructor
  · exact C9_amended.2.2.2.2 StepOp.plus StepOp.plus
  · intro hs
    have h := (C9_amended.1 (0, 100) ⟨700, 100, 3, 20⟩ ⟨697, 100, 3, 20⟩ false
      chasingUpdate_example).mpr hs
    simp at h

/-- C1: the generator's scheduled spawn callbacks carry no terminal
guard.  Fired in a session that has already stopped (`running = false`
after a Lose), `create_chasing` still appends to both the enemies and the
element lists, and `create_randomWalkenemy` still appends to the element
list, mutating the entity list post-terminal — the claimed freeze does not
hold for scheduled callbacks. -/
theorem C1_unguarded_spawn :
    (⟨false, [], [], 1⟩ : GameS).running = false ∧
    (create_chasing 300 200 ⟨false, [], [], 1⟩).enemies.length = 1 ∧
    (create_chasing 300 200 ⟨false, [], [], 1⟩).elements.length = 1 ∧
    (create_randomWalkenemy 300 200 ⟨false, [], [], 1⟩).elements.length = 1 ∧
    (create_chasing 300 200 ⟨false, [], [], 1⟩).running = false :=
  ⟨rfl, rfl, rfl, rfl, rfl⟩

/-- C2 counterexample: in a pass where two enemies both satisfy their
collision condition, the second `game_over_lose` request is not ignored —
the session state after the pass differs from the state after the first
request alone (a second "You Lose" banner is drawn), and `game_over_lose`
is not idempotent on the full state. -/
theorem C2_counterexample :
    losePass ⟨true, [], [], 0⟩ [true, true] ≠ game_over_lose ⟨true, [], [], 0⟩ ∧
    (losePass ⟨true, [], [], 0⟩ [true, true]).loseBanners = 2 ∧
    game_over_lose (game_over_lose ⟨true, [], [], 0⟩) ≠
      game_over_lose ⟨true, [], [], 0⟩ := by
  refine ⟨?_, rfl, ?_⟩
  · intro h
    have h2 := congrArg GameS.loseBanners h
    simp [losePass, game_over_lose, stop] at h2
  · intro h
    have h2 := congrArg GameS.loseBanners h
    simp [game_over_lose, stop] at h2

/-- Each colliding enemy in a pass draws one additional Lose banner. -/
theorem losePass_loseBanners (hits : List Bool) :
    ∀ g : GameS, (losePass g hits).loseBanners = g.loseBanners + hits.count true := by
  induction hits with
  | nil => intro g; rfl
  | cons h rest ih =>
    intro g
    cases h
    · rw [show losePass g (false :: rest) = losePass g rest from rfl, ih g]
      simp [List.count_cons]
    · rw [show losePass g (true :: rest) = losePass (game_over_lose g) rest from rfl,
        ih (game_over_lose g)]
      simp only [game_over_lose, stop]
      simp [List.count_cons]
      omega

/-- The running flag after a pass: cleared exactly when the session was
stopped before or some enemy collided. -/
theorem losePass_running (hits : List Bool) :
    ∀ g : GameS, (losePass g hits).running = (g.running && !hits.contains true) := by
  induction hits with
  | nil => intro g; simp [losePass]
  | cons h rest ih =>
    intro g
    cases h
    · rw [show losePass g (false :: rest) = losePass g rest from rfl, ih g]
      simp
    · rw [show losePass g (true :: rest) = losePass (game_over_lose g) rest from rfl,
        ih (game_over_lose g)]
      simp [game_over_lose, stop]

/-- C2 (amended): within one update pass from a running session, the
running flag ends cleared exactly when some enemy collided, and since
`stop` is idempotent on the flag the session undergoes exactly one
Running-to-stopped transition; but subsequent requests in the same pass
are not ignored — every colliding enemy's `game_over_lose` runs in full,
drawing one additional "You Lose" banner per request. -/
theorem C2_amended (g : GameS) (hits : List Bool) (hrun : g.running = true) :
    ((losePass g hits).running = false ↔ true ∈ hits) ∧
    (losePass g hits).loseBanners = g.loseBanners + hits.count true ∧
    stop (stop g) = stop g := by
  refine ⟨?_, losePass_loseBanners hits g, rfl⟩
  rw [losePass_running hits g, hrun]
  simp

/-- C2 witness: the amended theorem applied to a concrete running session
and a pass with two colliding enemies. -/
theorem C2_witness :
    (⟨true, [], [], 0⟩ : GameS).running = true ∧
      (losePass ⟨true, [], [], 0⟩ [true, true]).loseBanners =
        0 + [true, true].count true :=
  ⟨rfl, (C2_amended ⟨true, [], [], 0⟩ [true, true] rfl).2.1⟩

/-- The four fencing enemies appended by `create_fencing`. -/
theorem create_fencing_enemies (g : GameS) :
    (create_fencing g).enemies = g.enemies ++
      [⟨.fencing, 720, 270, some 0⟩, ⟨.fencing, 660, 210, some 1⟩,
       ⟨.fencing, 720, 210, some 2⟩, ⟨.fencing, 660, 270, some 3⟩] := by
  simp [create_fencing, add_enemy, add_element, List.range_succ, fencingCreate]

/-- The four fencing enemies are likewise registered as elements. -/
theorem create_fencing_elements (g : GameS) :
    (create_fencing g).elements = g.elements ++
      [⟨.fencing, 720, 270, some 0⟩, ⟨.fencing, 660, 210, some 1⟩,
       ⟨.fencing, 720, 210, some 2⟩, ⟨.fencing, 660, 270, some 3⟩] := by
  simp [create_fencing, add_enemy, add_element, List.range_succ, fencingCreate]

/-- No generator callback puts a random-walker into `enemies`. -/
theorem applyCall_enemies_kinds (g : GameS) (c : GenCall)
    (h : ∀ e ∈ g.enemies, e.kind ≠ EnemyKind.randomWalk) :
    ∀ e ∈ (applyCall g c).enemies, e.kind ≠ EnemyKind.randomWalk := by
  intro e he
  cases c with
  | randomWalk rx ry => exact h e he
  | chasing rx ry =>
    rcases List.mem_append.mp he with h1 | h1
    · exact h e h1
    · simp only [List.mem_singleton] at h1
      subst h1
      simp
  | fencing =>
    simp only [applyCall] at he
    rw [create_fencing_enemies] at he
    rcases List.mem_append.mp he with h1 | h1
    · exact h e h1
    · simp only [List.mem_cons, List.not_mem_nil, or_false] at h1
      rcases h1 with rfl | rfl | rfl | rfl <;> simp
  | centipede rx ry =>
    rcases List.mem_append.mp he with h1 | h1
    · exact h e h1
    · simp only [List.mem_singleton] at h1
      subst h1
      simp
  | shooting rx ry =>
    rcases List.mem_append.mp he with h1 | h1
    · exact h e h1
    · simp only [List.mem_singleton] at h1
      subst h1
      simp

/-- C10: `create_randomWalkenemy` registers only via `add_element` and
leaves `enemies` untouched; every other generator factory registers via
`add_enemy`, which appends to `enemies`; hence no sequence of generator
callbacks ever puts a random-walker into the `enemies` collection. -/
theorem C10_registration :
    (∀ (rx ry : ℚ) (g : GameS),
      (create_randomWalkenemy rx ry g).enemies = g.enemies ∧
      (create_randomWalkenemy rx ry g).elements =
        g.elements ++ [⟨.randomWalk, rx, ry, none⟩]) ∧
    (∀ (rx ry : ℚ) (g : GameS),
      (create_chasing rx ry g).enemies = g.enemies ++ [⟨.chasing, rx, ry, none⟩] ∧
      (create_centipede rx ry g).enemies = g.enemies ++ [⟨.centipede, rx, ry, none⟩] ∧
      (create_ShootingEnemy rx ry g).enemies =
        g.enemies ++ [⟨.shooting, rx, ry, none⟩]) ∧
    (∀ g : GameS, (create_fencing g).enemies = g.enemies ++
      [⟨.fencing, 720, 270, some 0⟩, ⟨.fencing, 660, 210, some 1⟩,
       ⟨.fencing, 720, 210, some 2⟩, ⟨.fencing, 660, 270, some 3⟩]) ∧
    (∀ (g : GameS) (cs : List GenCall),
      (∀ e ∈ g.enemies, e.kind ≠ EnemyKind.randomWalk) →
        ∀ e ∈ (applyCalls g cs).enemies, e.kind ≠ EnemyKind.randomWalk) := by
  refine ⟨?_, ?_, create_fencing_enemies, ?_⟩
  · intro rx ry g
    exact ⟨rfl, rfl⟩
  · intro rx ry g
    exact ⟨rfl, rfl, rfl⟩
  · intro g cs
    induction cs generalizing g with
    | nil => exact fun h => h
    | cons c rest ih =>
      intro h
      exact ih (applyCall g c) (applyCall_enemies_kinds g c h)

/-- C10 witness: the invariant applied to a concrete call sequence
containing a random-walk spawn followed by a chasing spawn. -/
theorem C10_witness :
    (applyCalls ⟨true, [], [], 0⟩
        [GenCall.randomWalk 100 100, GenCall.chasing 1 2]).enemies =
      [⟨EnemyKind.chasing, 1, 2, none⟩] ∧
    (⟨EnemyKind.chasing, 1, 2, none⟩ : GEntity).kind ≠ EnemyKind.randomWalk := by
  refine ⟨rfl, ?_⟩
  exact C10_registration.2.2.2 ⟨true, [], [], 0⟩
    [GenCall.randomWalk 100 100, GenCall.chasing 1 2]
    (by intro e he; simp at he) ⟨EnemyKind.chasing, 1, 2, none⟩
    (by rw [show (applyCalls ⟨true, [], [], 0⟩
        [GenCall.randomWalk 100 100, GenCall.chasing 1 2]).enemies =
      [⟨EnemyKind.chasing, 1, 2, none⟩] from rfl]; simp)

set_option maxRecDepth 100000 in
/-- C8: `EnemyGenerator.__init__` schedules exactly the stated plan — at
100 ms one fencing set, one centipede, one random-walker and five
shooters, then a random-walker at every multiple of 1000 ms below
100000 ms and a chaser at every multiple of 1000 ms below 10000 ms — and
each factory (except fencing, which uses the four fixed patrol corners)
assigns the freshly drawn random position, which lies within the visible
area for the `randint(0,600)`/`randint(0,500)` ranges, and registers the
enemy with the session. -/
theorem C8_schedule :
    schedule = specPlan ∧
    (∀ (rx ry : ℚ) (g : GameS), 0 ≤ rx → rx ≤ 600 → 0 ≤ ry → ry ≤ 500 →
      ((create_randomWalkenemy rx ry g).elements =
          g.elements ++ [⟨.randomWalk, rx, ry, none⟩] ∧
        (create_chasing rx ry g).enemies = g.enemies ++ [⟨.chasing, rx, ry, none⟩] ∧
        (create_chasing rx ry g).elements = g.elements ++ [⟨.chasing, rx, ry, none⟩] ∧
        (create_centipede rx ry g).enemies =
          g.enemies ++ [⟨.centipede, rx, ry, none⟩] ∧
        (create_ShootingEnemy rx ry g).enemies =
          g.enemies ++ [⟨.shooting, rx, ry, none⟩]) ∧
      (0 ≤ rx ∧ rx ≤ 800 ∧ 0 ≤ ry ∧ ry ≤ 500)) ∧
    (∀ g : GameS, (create_fencing g).elements = g.elements ++
      [⟨.fencing, 720, 270, some 0⟩, ⟨.fencing, 660, 210, some 1⟩,
       ⟨.fencing, 720, 210, some 2⟩, ⟨.fencing, 660, 270, some 3⟩]) := by
  refine ⟨by decide, ?_, create_fencing_elements⟩
  intro rx ry g h1 h2 h3 h4
  exact ⟨⟨rfl, rfl, rfl, rfl, rfl⟩, h1, by linarith, h3, h4⟩

/-- C8 witness: the factory part applied to the concrete draw (300, 200)
from `randint(0,600)` × `randint(0,500)`. -/
theorem C8_witness :
    ((0 : ℚ) ≤ 300 ∧ (300 : ℚ) ≤ 600 ∧ (0 : ℚ) ≤ 200 ∧ (200 : ℚ) ≤ 500) ∧
      ((0 : ℚ) ≤ 300 ∧ (300 : ℚ) ≤ 800 ∧ (0 : ℚ) ≤ 200 ∧ (200 : ℚ) ≤ 500) := by
  refine ⟨⟨by norm_num, by norm_num, by norm_num, by norm_num⟩, ?_⟩
  exact (C8_schedule.2.1 300 200 ⟨true, [], [], 0⟩ (by norm_num) (by norm_num)
    (by norm_num) (by norm_num)).2

end TurtleAdventure
